import Mathlib

/-!
Verification of the streaming SSE relay of the Crucible repository.

The embedding models, at character granularity, the two halves of the relay:

* the server side (`src/server/routes.ts`, `registerRoutes`): the credential
  gate of the three POST endpoints, the upstream `data` handler that
  re-frames provider lines into the relay envelope, and the `end` handler
  that flushes the residual buffer and terminates the downstream response;
* the client side (`streamFromApi`): the HTTP status check and the
  incremental line decoder driving the `onChunk` / `onError` callbacks.

JavaScript strings are modelled as `List Char`; `JSON.parse` and
`JSON.stringify` are modelled by an executable JSON value type with a
recursive-descent parser and serializer.
-/

namespace Crucible

abbrev Str := List Char

/-- Whitespace class used by JavaScript `String.prototype.trim` (the
WhiteSpace and LineTerminator productions). -/
def isJsWs (c : Char) : Bool :=
  c = ' ' || c = '\t' || c = '\n' || c = '\x0b' || c = '\x0c' || c = '\r' ||
  c.toNat = 0xa0 || c.toNat = 0x1680 ||
  (0x2000 ≤ c.toNat && c.toNat ≤ 0x200a) ||
  c.toNat = 0x2028 || c.toNat = 0x2029 || c.toNat = 0x202f ||
  c.toNat = 0x205f || c.toNat = 0x3000 || c.toNat = 0xfeff

/-- Model of JavaScript `s.trim()`. -/
def jsTrim (s : Str) : Str :=
  ((s.dropWhile isJsWs).reverse.dropWhile isJsWs).reverse

/-- Model of JavaScript `s.startsWith(p)`. -/
def jsStartsWith (p s : Str) : Bool :=
  match p, s with
  | [], _ => true
  | _ :: _, [] => false
  | a :: p, b :: s => a = b && jsStartsWith p s

/-- Model of the buffering split used by both stream loops:
`const lines = buffer.split("\n"); buffer = lines.pop() || ""`.
Returns the complete lines and the retained residual (the segment after the
last newline, possibly empty). -/
def splitLines : Str → List Str × Str
  | [] => ([], [])
  | c :: cs =>
    let p := splitLines cs
    if c = '\n' then ([] :: p.1, p.2)
    else
      match p.1 with
      | [] => ([], c :: p.2)
      | l :: ls => ((c :: l) :: ls, p.2)

/-- Model of a full JavaScript `buffer.split("\n")` (used by the server's
`end` handler, which iterates over every segment). -/
def splitAll (s : Str) : List Str :=
  (splitLines s).1 ++ [(splitLines s).2]

/-! ## JSON values -/

/-- Model of a JavaScript JSON value as produced by `JSON.parse`.  Numbers
keep their source lexeme; none of the relay's observable behaviour depends
on numeric arithmetic. -/
inductive Json where
  | jnull
  | jbool (b : Bool)
  | jnum (lex : Str)
  | jstr (s : Str)
  | jarr (xs : List Json)
  | jobj (kvs : List (Str × Json))

/-- Mantissa-digits-all-zero test, used to decide JavaScript truthiness of a
parsed number (the numeric value is zero iff every mantissa digit is 0). -/
def numIsZero (lex : Str) : Bool :=
  let noSign := match lex with
    | '-' :: r => r
    | _ => lex
  let mant := noSign.takeWhile (fun c => !(c = 'e' || c = 'E'))
  (mant.filter Char.isDigit).all (fun c => c = '0')

/-- JavaScript truthiness of a JSON value. -/
def jsTruthy : Json → Bool
  | .jnull => false
  | .jbool b => b
  | .jnum lex => !(numIsZero lex)
  | .jstr s => !s.isEmpty
  | .jarr _ => true
  | .jobj _ => true

/-- Lookup of an object property; with duplicate keys, `JSON.parse` keeps
the last occurrence, so the lookup returns the last binding. -/
def lookupLast (kvs : List (Str × Json)) (k : Str) : Option Json :=
  match kvs with
  | [] => none
  | (k', v) :: rest =>
    match lookupLast rest k with
    | some r => some r
    | none => if k' = k then some v else none

/-- Property access `v.k` on a value known not to be null or undefined:
objects look the key up, every other value has no such own property. -/
def getProp (v : Json) (k : Str) : Option Json :=
  match v with
  | .jobj kvs => lookupLast kvs k
  | _ => none

/-- Optional-chained property access `x?.k` (`none` models undefined). -/
def optProp (x : Option Json) (k : Str) : Option Json :=
  match x with
  | none => none
  | some .jnull => none
  | some v => getProp v k

/-- Optional-chained index access `x?.[i]`: arrays index their elements,
strings index their characters, everything else yields undefined. -/
def optIdx (x : Option Json) (i : Nat) : Option Json :=
  match x with
  | none => none
  | some .jnull => none
  | some (.jarr xs) => xs.get? i
  | some (.jstr s) => (s.get? i).map (fun c => .jstr [c])
  | some _ => none

/-! ## JSON.stringify -/

/-- Escaping of one character inside a JSON string literal, following the
`JSON.stringify` quoting algorithm (named short escapes, `\u00xx` for the
remaining control characters, everything else verbatim). -/
def hexDig (n : Nat) : Char :=
  if n < 10 then Char.ofNat (48 + n) else Char.ofNat (87 + n)

def escChar (c : Char) : Str :=
  if c = '"' then ['\\', '"']
  else if c = '\\' then ['\\', '\\']
  else if c = '\x08' then ['\\', 'b']
  else if c = '\t' then ['\\', 't']
  else if c = '\n' then ['\\', 'n']
  else if c = '\x0c' then ['\\', 'f']
  else if c = '\r' then ['\\', 'r']
  else if c.toNat < 0x20 then
    ['\\', 'u', '0', '0', hexDig (c.toNat / 16), hexDig (c.toNat % 16)]
  else [c]

def escString (s : Str) : Str := List.flatMap s escChar

mutual

/-- Model of `JSON.stringify` on a JSON value. -/
def stringifyVal : Json → Str
  | .jnull => ("null").data
  | .jbool true => ("true").data
  | .jbool false => ("false").data
  | .jnum lex => lex
  | .jstr s => '"' :: (escString s ++ ['"'])
  | .jarr xs => '[' :: (stringifyArr xs ++ [']'])
  | .jobj kvs => '\x7b' :: (stringifyObj kvs ++ ['\x7d'])

def stringifyArr : List Json → Str
  | [] => []
  | [x] => stringifyVal x
  | x :: y :: xs => stringifyVal x ++ ',' :: stringifyArr (y :: xs)

def stringifyObj : List (Str × Json) → Str
  | [] => []
  | [(k, v)] => '"' :: (escString k ++ '"' :: ':' :: stringifyVal v)
  | (k, v) :: m :: kvs =>
    '"' :: (escString k ++ '"' :: ':' :: stringifyVal v) ++ ',' :: stringifyObj (m :: kvs)

end

/-! ## JSON.parse -/

/-- JSON insignificant whitespace. -/
def isJsonWs (c : Char) : Bool :=
  c = ' ' || c = '\t' || c = '\n' || c = '\r'

def skipWs : Str → Str
  | [] => []
  | c :: rest => if isJsonWs c then skipWs rest else c :: rest

/-- Value of one hexadecimal digit. -/
def hexVal (c : Char) : Option Nat :=
  if '0' ≤ c ∧ c ≤ '9' then some (c.toNat - 48)
  else if 'a' ≤ c ∧ c ≤ 'f' then some (c.toNat - 87)
  else if 'A' ≤ c ∧ c ≤ 'F' then some (c.toNat - 55)
  else none

/-- Decoding of a named (non-`\u`) escape character. -/
def escDecode (c : Char) : Option Char :=
  if c = '"' then some '"'
  else if c = '\\' then some '\\'
  else if c = '/' then some '/'
  else if c = 'b' then some '\x08'
  else if c = 'f' then some '\x0c'
  else if c = 'n' then some '\n'
  else if c = 'r' then some '\r'
  else if c = 't' then some '\t'
  else none

mutual

/-- Body of a JSON string literal, after the opening quote: returns the
decoded characters and the input following the closing quote. -/
def parseStrBody : Str → Option (Str × Str)
  | [] => none
  | c :: rest =>
    if c = '"' then some ([], rest)
    else if c = '\\' then parseEsc rest
    else if c.toNat < 0x20 then none
    else (parseStrBody rest).map (fun p => (c :: p.1, p.2))

/-- Continuation after a backslash inside a string literal. -/
def parseEsc : Str → Option (Str × Str)
  | [] => none
  | e :: rest' =>
    if e = 'u' then parseHex4 rest'
    else (escDecode e).bind (fun d => (parseStrBody rest').map (fun p => (d :: p.1, p.2)))

/-- Continuation after `\u`: four hex digits. -/
def parseHex4 : Str → Option (Str × Str)
  | h1 :: h2 :: h3 :: h4 :: rest'' =>
    (hexVal h1).bind fun a =>
      (hexVal h2).bind fun b =>
        (hexVal h3).bind fun v3 =>
          (hexVal h4).bind fun v4 =>
            (parseStrBody rest'').map
              (fun p => (Char.ofNat (a * 4096 + b * 256 + v3 * 16 + v4) :: p.1, p.2))
  | _ => none

end

/-- Literal `true` (after the leading `t`). -/
def parseTrue : Str → Option (Json × Str)
  | 'r' :: 'u' :: 'e' :: r => some (.jbool true, r)
  | _ => none

/-- Literal `false` (after the leading `f`). -/
def parseFalse : Str → Option (Json × Str)
  | 'a' :: 'l' :: 's' :: 'e' :: r => some (.jbool false, r)
  | _ => none

/-- Literal `null` (after the leading `n`). -/
def parseNull : Str → Option (Json × Str)
  | 'u' :: 'l' :: 'l' :: r => some (.jnull, r)
  | _ => none

/-- Strict JSON number lexeme starting at the given input; returns the
lexeme and the rest. -/
def parseNum (s : Str) : Option (Str × Str) :=
  let sign : Str × Str := match s with
    | '-' :: r => (['-'], r)
    | _ => ([], s)
  match sign.2 with
  | [] => none
  | c :: r =>
    if c = '0' then afterInt (sign.1 ++ ['0']) r
    else if c.isDigit then
      let ds := r.takeWhile Char.isDigit
      afterInt (sign.1 ++ c :: ds) (r.drop ds.length)
    else none
where
  afterInt (lex : Str) (s : Str) : Option (Str × Str) :=
    match s with
    | '.' :: r =>
      let ds := r.takeWhile Char.isDigit
      if ds.isEmpty then none
      else afterFrac (lex ++ '.' :: ds) (r.drop ds.length)
    | _ => afterFrac lex s
  afterFrac (lex : Str) (s : Str) : Option (Str × Str) :=
    match s with
    | e :: r =>
      if e = 'e' ∨ e = 'E' then
        let signR : Str × Str := match r with
          | '+' :: r' => (['+'], r')
          | '-' :: r' => (['-'], r')
          | _ => ([], r)
        let ds := signR.2.takeWhile Char.isDigit
        if ds.isEmpty then none
        else some (lex ++ e :: (signR.1 ++ ds), signR.2.drop ds.length)
      else some (lex, e :: r)
    | [] => some (lex, [])

mutual

/-- Recursive-descent JSON value parser (fuel-indexed for termination). -/
def parseVal : Nat → Str → Option (Json × Str)
  | 0, _ => none
  | _ + 1, [] => none
  | fuel + 1, c :: rest =>
    if c = '\x7b' then parseObjRest fuel (skipWs rest) []
    else if c = '[' then parseArrRest fuel (skipWs rest) []
    else if c = '"' then (parseStrBody rest).map (fun p => (.jstr p.1, p.2))
    else if c = 't' then parseTrue rest
    else if c = 'f' then parseFalse rest
    else if c = 'n' then parseNull rest
    else (parseNum (c :: rest)).map (fun p => (.jnum p.1, p.2))

/-- Members of an object after `{` (or after a `,`), whitespace skipped:
an immediate `}` closes the empty object, otherwise a quoted key follows. -/
def parseObjRest : Nat → Str → List (Str × Json) → Option (Json × Str)
  | 0, _, _ => none
  | _ + 1, '\x7d' :: r, [] => some (.jobj [], r)
  | fuel + 1, '"' :: rest, acc =>
    (parseStrBody rest).bind (fun kr => objColon fuel kr.1 (skipWs kr.2) acc)
  | _ + 1, _, _ => none

/-- Continuation after an object key: expects `:`, then a value. -/
def objColon : Nat → Str → Str → List (Str × Json) → Option (Json × Str)
  | fuel + 1, k, ':' :: r2, acc =>
    (parseVal fuel (skipWs r2)).bind
      (fun p => objAfterVal fuel k p.1 (skipWs p.2) acc)
  | _, _, _, _ => none

/-- Continuation after an object member: `,` continues, `}` closes. -/
def objAfterVal : Nat → Str → Json → Str → List (Str × Json) → Option (Json × Str)
  | _, k, v, '\x7d' :: r4, acc => some (.jobj (acc ++ [(k, v)]), r4)
  | fuel + 1, k, v, ',' :: r4, acc => parseObjRest fuel (skipWs r4) (acc ++ [(k, v)])
  | _, _, _, _, _ => none

/-- Elements of an array after `[` (or after a `,`), whitespace skipped:
an immediate `]` closes the empty array, otherwise a value follows. -/
def parseArrRest : Nat → Str → List Json → Option (Json × Str)
  | 0, _, _ => none
  | _ + 1, ']' :: r, [] => some (.jarr [], r)
  | fuel + 1, s, acc =>
    (parseVal fuel s).bind (fun p => arrAfterVal fuel p.1 (skipWs p.2) acc)

/-- Continuation after an array element: `,` continues, `]` closes. -/
def arrAfterVal : Nat → Json → Str → List Json → Option (Json × Str)
  | _, v, ']' :: r2, acc => some (.jarr (acc ++ [v]), r2)
  | fuel + 1, v, ',' :: r2, acc => parseArrRest fuel (skipWs r2) (acc ++ [v])
  | _, _, _, _ => none

end

/-- Model of `JSON.parse`: parse one value, allow trailing whitespace only.
`none` models a thrown `SyntaxError` (callers wrap the call in try/catch). -/
def jsonParse (s : Str) : Option Json :=
  match parseVal (s.length + 1) (skipWs s) with
  | some (v, rest) => if skipWs rest = [] then some v else none
  | none => none

/-! ## Wire-format constants shared by both halves -/

/-- The SSE line marker `"data: "`. -/
def dataMarker : Str := ("data: ").data

/-- The terminator sentinel `"[DONE]"`. -/
def doneStr : Str := ("[DONE]").data

/-- The terminator envelope the relay writes: `"data: [DONE]\n\n"`. -/
def doneEnvelope : Str := ("data: [DONE]\n\n").data

/-- Serialization of `JSON.stringify({ content })`. -/
def contentObjStr (v : Json) : Str :=
  ("\x7b\"content\":").data ++ stringifyVal v ++ [ '\x7d' ]

/-- Serialization of `JSON.stringify({ error })`. -/
def errorObjStr (v : Json) : Str :=
  ("\x7b\"error\":").data ++ stringifyVal v ++ [ '\x7d' ]

/-- One content line the relay writes downstream (without the two trailing
newlines). -/
def contentLine (f : Str) : Str :=
  dataMarker ++ contentObjStr (.jstr f)

/-- One full content envelope written downstream:
`` `data: ${JSON.stringify({ content })}\n\n` ``. -/
def contentEnvelope (f : Str) : Str :=
  contentLine f ++ ('\n' :: '\n' :: [])

/-- One full error envelope written downstream:
`` `data: ${JSON.stringify({ error })}\n\n` ``. -/
def errorEnvelope (m : Str) : Str :=
  dataMarker ++ errorObjStr (.jstr m) ++ ('\n' :: '\n' :: [])

/-! ## Client half: `streamFromApi` -/

/-- Callback invocation recorded by the client decoder: one `onChunk` call
or one `onError` call, carrying the JSON value the source passes. -/
inductive CEvent where
  | frag (v : Json)
  | err (v : Json)

/-- Line-processing step of `streamFromApi`'s read loop: keep `data: `
lines, strip the marker, trim, skip the `[DONE]` sentinel, `JSON.parse`
(silently skipping lines that fail to parse), then dispatch `onChunk` on a
truthy `content` field and `onError` (when the caller supplied one) on a
truthy `error` field.  Property access on a parsed `null` raises a
`TypeError` in the source, which the surrounding try/catch swallows; it is
modelled as producing no events. -/
def procLineClient (hasOnError : Bool) (line : Str) : List CEvent :=
  if jsStartsWith dataMarker line then
    let d := jsTrim (line.drop 6)
    if d = doneStr then []
    else
      match jsonParse d with
      | none => []
      | some .jnull => []
      | some parsed =>
        (match getProp parsed (("content").data) with
         | some v => if jsTruthy v then [.frag v] else []
         | none => []) ++
        (if hasOnError then
          match getProp parsed (("error").data) with
          | some v => if jsTruthy v then [.err v] else []
          | none => []
         else [])
  else []

/-- One iteration of a buffering decode loop: append the chunk, split on
newlines, retain the residual, process each complete line with `pl`. -/
def decodeStep {α : Type} (pl : Str → List α) (buf chunk : Str) : Str × List α :=
  let p := splitLines (buf ++ chunk)
  (p.2, List.flatMap p.1 pl)

/-- Folding a decode loop over a chunk sequence from a starting buffer. -/
def decodeRun {α : Type} (pl : Str → List α) (buf : Str) (chunks : List Str) :
    Str × List α :=
  match chunks with
  | [] => (buf, [])
  | c :: cs =>
    let p := decodeStep pl buf c
    let q := decodeRun pl p.1 cs
    (q.1, p.2 ++ q.2)

/-- State step of `streamFromApi`'s `while` loop on one received chunk. -/
def clientStep (hasOnError : Bool) (buf chunk : Str) : Str × List CEvent :=
  decodeStep (procLineClient hasOnError) buf chunk

/-- Callback sequence produced by `streamFromApi`'s read loop over a whole
chunk sequence; the loop exits on `done` and the residual buffer is
discarded. -/
def clientRun (hasOnError : Bool) (chunks : List Str) : List CEvent :=
  (decodeRun (procLineClient hasOnError) [] chunks).2

/-- Model of the `fetch` response consumed by `streamFromApi`: status
information, the text `response.text()` would yield, and the chunk sequence
of `response.body` (`none` models a missing body). -/
structure FetchResponse where
  ok : Bool
  status : Nat
  bodyText : Str
  body : Option (List Str)

/-- Model of `streamFromApi`: non-ok responses raise
`` `API error ${status}: ${text}` `` without touching the body stream; a
missing body raises; otherwise the read loop runs to stream end and the
promise resolves with the recorded callback sequence. -/
def streamFromApi (resp : FetchResponse) (hasOnError : Bool) :
    Except Str (List CEvent) :=
  if !resp.ok then
    .error (("API error ").data ++ (Nat.repr resp.status).data ++ (": ").data ++ resp.bodyText)
  else
    match resp.body with
    | none => .error (("No response body").data)
    | some chunks => .ok (clientRun hasOnError chunks)

/-! ## Server half: `registerRoutes` -/

/-- Extraction `parsed.choices?.[0]?.delta?.content` used by every route's
upstream decoder.  The unguarded `.choices` access raises a `TypeError`
when `parsed` is null (the handler's try/catch swallows it, producing no
write), and yields undefined on any other non-object. -/
def extractContent (parsed : Json) : Option Json :=
  match parsed with
  | .jnull => none
  | _ =>
    optProp (optProp (optIdx (getProp parsed (("choices").data)) 0) (("delta").data))
      (("content").data)

/-- Line-processing step of the server's `data` handler: forward upstream
`[DONE]` as a terminator envelope, re-frame a truthy extracted content
fragment (`content || ""` then `if (content)`) as the relay's own content
envelope, silently skip unparseable lines. -/
def procLineServer (line : Str) : List Str :=
  if jsStartsWith dataMarker line then
    let d := jsTrim (line.drop 6)
    if d = doneStr then [doneEnvelope]
    else
      match jsonParse d with
      | none => []
      | some parsed =>
        let content := match extractContent parsed with
          | some v => if jsTruthy v then v else .jstr []
          | none => .jstr []
        if jsTruthy content then
          [dataMarker ++ contentObjStr content ++ ('\n' :: '\n' :: [])]
        else []
  else []

/-- Line-processing step of the server's `end` handler over the residual
buffer: identical to the `data` handler except that a `[DONE]` line is
skipped with `continue` instead of being forwarded. -/
def procLineServerEnd (line : Str) : List Str :=
  if jsStartsWith dataMarker line then
    let d := jsTrim (line.drop 6)
    if d = doneStr then []
    else
      match jsonParse d with
      | none => []
      | some parsed =>
        let content := match extractContent parsed with
          | some v => if jsTruthy v then v else .jstr []
          | none => .jstr []
        if jsTruthy content then
          [dataMarker ++ contentObjStr content ++ ('\n' :: '\n' :: [])]
        else []
  else []

/-- State step of the server's `proxyRes.on("data")` handler on one
upstream chunk, yielding the new buffer and the downstream writes. -/
def serverData (buf chunk : Str) : Str × List Str :=
  decodeStep procLineServer buf chunk

/-- Downstream writes of the server's `proxyRes.on("end")` handler: when
the residual buffer trims non-empty, every segment of its full split is
processed once with the end-handler rule; then the terminator envelope is
written unconditionally and the response is ended. -/
def serverEnd (buf : Str) : List Str :=
  (if jsTrim buf ≠ [] then List.flatMap (splitAll buf) procLineServerEnd else []) ++
    [doneEnvelope]

/-- Complete downstream write sequence of one relayed request whose
upstream socket delivers `chunks` and then signals end. -/
def serverRun (chunks : List Str) : List Str :=
  let p := decodeRun procLineServer [] chunks
  p.2 ++ serverEnd p.1

/-- Model of the write performed by the `proxyReq`/`proxyRes` `error`
handlers: one error envelope carrying the failure message, then `end`. -/
def serverOnProxyError (msg : Str) : List Str :=
  [errorEnvelope msg]

/-! ## Credential gate of the three endpoints -/

/-- Reply of a route handler before/at the start of streaming: either an
immediate non-streaming JSON error, or the streaming phase entered with the
resolved upstream credential. -/
inductive RouteReply where
  | jsonError (status : Nat) (body : Json)
  | sse (key : Str)

/-- Number of upstream connection attempts implied by a reply: a streaming
reply opens exactly one upstream request, an early JSON error opens none. -/
def upstreamConnections : RouteReply → Nat
  | .jsonError _ _ => 0
  | .sse _ => 1

/-- The 400 body `{ error: "No API key configured" }`. -/
def noKeyBody : Json :=
  .jobj [((("error").data), .jstr (("No API key configured").data))]

/-- Credential gate of `POST /api/chat`:
`const key = apiKey || process.env.NVIDIA_NIM_API_KEY; if (!key) ...`.
`none` models an absent request field / unset environment variable. -/
def chatRoute (apiKey envKey : Option Str) : RouteReply :=
  let key := match apiKey with
    | some k => if k.isEmpty then envKey else some k
    | none => envKey
  match key with
  | none => .jsonError 400 noKeyBody
  | some k => if k.isEmpty then .jsonError 400 noKeyBody else .sse k

/-- Credential gate of `POST /api/generate-module` (same check). -/
def generateModuleRoute (apiKey envKey : Option Str) : RouteReply :=
  let key := match apiKey with
    | some k => if k.isEmpty then envKey else some k
    | none => envKey
  match key with
  | none => .jsonError 400 noKeyBody
  | some k => if k.isEmpty then .jsonError 400 noKeyBody else .sse k

/-- Credential gate of `POST /api/self-modify` (same check). -/
def selfModifyRoute (apiKey envKey : Option Str) : RouteReply :=
  let key := match apiKey with
    | some k => if k.isEmpty then envKey else some k
    | none => envKey
  match key with
  | none => .jsonError 400 noKeyBody
  | some k => if k.isEmpty then .jsonError 400 noKeyBody else .sse k

/-! ## Upstream provider dialect (spec section 6) and well-formed streams -/

/-- Payload of one upstream content line, with the fragment nested at
`choices[0].delta.content`. -/
def upstreamPayload (f : Str) : Str :=
  ("\x7b\"choices\":[\x7b\"delta\":\x7b\"content\":").data ++
    ('"' :: (escString f ++ '"' :: '\x7d' :: '\x7d' :: ']' :: '\x7d' :: []))

/-- One upstream content line (without its newline). -/
def upstreamLine (f : Str) : Str :=
  dataMarker ++ upstreamPayload f

/-- An upstream error-payload line `data: {"error":"..."}`. -/
def upstreamErrorLine (m : Str) : Str :=
  dataMarker ++ errorObjStr (.jstr m)

/-- A complete well-formed upstream stream: one newline-terminated content
line per fragment, then a newline-terminated `data: [DONE]` line. -/
def upstreamStream (fs : List Str) : Str :=
  (fs.map (fun f => upstreamLine f ++ ['\n'])).flatten ++
    (("data: [DONE]").data ++ ['\n'])

/-- A complete well-formed relay envelope stream: one content envelope per
fragment, then the terminator envelope. -/
def wfStream (fs : List Str) : Str :=
  (fs.map contentEnvelope).flatten ++ doneEnvelope

/-- Parsed form of the relay content envelope payload. -/
def contentJson (f : Str) : Json :=
  .jobj [((("content").data), .jstr f)]

/-- Parsed form of the relay error envelope payload. -/
def errorJson (m : Str) : Json :=
  .jobj [((("error").data), .jstr m)]

/-- Parsed form of one upstream content payload. -/
def upstreamJson (f : Str) : Json :=
  .jobj [((("choices").data),
    .jarr [.jobj [((("delta").data), .jobj [((("content").data), .jstr f)])]])]

/-- Fragment texts carried by a callback sequence. -/
def fragTexts (evs : List CEvent) : List Str :=
  evs.filterMap (fun e =>
    match e with
    | .frag (.jstr s) => some s
    | _ => none)

/-! ## Lemmas: the buffering split -/

theorem splitLines_append (x y : Str) :
    splitLines (x ++ y) =
      ((splitLines x).1 ++ (splitLines ((splitLines x).2 ++ y)).1,
       (splitLines ((splitLines x).2 ++ y)).2) := by
  induction x with
  | nil => simp [splitLines]
  | cons c cs ih =>
    by_cases hc : c = '\n'
    · subst hc
      simp [splitLines, ih]
    · cases h1 : (splitLines cs).1 with
      | nil =>
        cases h2 : (splitLines ((splitLines cs).2 ++ y)).1 with
        | nil =>
          simp [splitLines, hc, ih, h1, h2]
        | cons q qs =>
          simp [splitLines, hc, ih, h1, h2]
      | cons l ls =>
        simp [splitLines, hc, ih, h1]

theorem splitLines_noNl (s : Str) (h : '\n' ∉ s) : splitLines s = ([], s) := by
  induction s with
  | nil => simp [splitLines]
  | cons c cs ih =>
    simp only [List.mem_cons, not_or] at h
    simp [splitLines, h.1, ih h.2, Ne.symm h.1]

theorem splitLines_line (l rest : Str) (h : '\n' ∉ l) :
    splitLines (l ++ '\n' :: rest) =
      (l :: (splitLines rest).1, (splitLines rest).2) := by
  induction l with
  | nil => simp [splitLines]
  | cons c cs ih =>
    simp only [List.mem_cons, not_or] at h
    have hne : ¬ c = '\n' := fun hh => h.1 hh.symm
    simp [List.cons_append, splitLines, ih h.2, hne]

/-! ## Lemmas: decode-loop composition -/

theorem decodeStep_append {α : Type} (pl : Str → List α) (b a c : Str) :
    decodeStep pl b (a ++ c) =
      ((decodeStep pl (decodeStep pl b a).1 c).1,
       (decodeStep pl b a).2 ++ (decodeStep pl (decodeStep pl b a).1 c).2) := by
  simp only [decodeStep]
  rw [show b ++ (a ++ c) = (b ++ a) ++ c from by simp, splitLines_append (b ++ a) c]
  simp [List.flatMap_append]

theorem decodeRun_cons_flatten {α : Type} (pl : Str → List α) (b : Str)
    (c : Str) (cs : List Str) :
    decodeRun pl b (c :: cs) = decodeStep pl b (c ++ cs.flatten) := by
  induction cs generalizing b c with
  | nil => simp [decodeRun]
  | cons c' cs' ih =>
    rw [show ((c' :: cs') : List Str).flatten = c' ++ cs'.flatten from rfl,
      show c ++ (c' ++ cs'.flatten) = (c ++ c') ++ cs'.flatten from by simp,
      ← ih b (c ++ c')]
    simp only [decodeRun, ih]
    rw [decodeStep_append]
    simp [decodeRun, ih]

theorem decodeRun_append {α : Type} (pl : Str → List α) (b : Str)
    (cs1 cs2 : List Str) :
    decodeRun pl b (cs1 ++ cs2) =
      ((decodeRun pl (decodeRun pl b cs1).1 cs2).1,
       (decodeRun pl b cs1).2 ++ (decodeRun pl (decodeRun pl b cs1).1 cs2).2) := by
  induction cs1 generalizing b with
  | nil => simp [decodeRun]
  | cons c cs ih =>
    show decodeRun pl b (c :: (cs ++ cs2)) = _
    conv_lhs => rw [decodeRun]
    rw [ih]
    conv_rhs => rw [decodeRun]
    simp [List.append_assoc]

/-! ## Lemmas: JSON string escaping round-trips through the parser -/

theorem hexVal_hexDig : ∀ n < 16, hexVal (hexDig n) = some n := by decide

theorem hexDig_ne_nl : ∀ n < 16, hexDig n ≠ '\n' := by decide

theorem escChar_no_nl (c : Char) : '\n' ∉ escChar c := by
  unfold escChar
  split
  · decide
  split
  · decide
  split
  · decide
  split
  · decide
  split
  · decide
  split
  · decide
  split
  · decide
  split
  · rename_i h1 h2 h3 h4 h5 h6 h7 h8
    intro hmem
    simp only [List.mem_cons, List.not_mem_nil, or_false] at hmem
    rcases hmem with h' | h' | h' | h' | h' | h'
    · exact absurd h' (by decide)
    · exact absurd h' (by decide)
    · exact absurd h' (by decide)
    · exact absurd h' (by decide)
    · exact hexDig_ne_nl (c.toNat / 16) (by omega) h'.symm
    · exact hexDig_ne_nl (c.toNat % 16) (by omega) h'.symm
  · rename_i h1 h2 h3 h4 h5 h6 h7 h8
    intro hmem
    simp only [List.mem_cons, List.not_mem_nil, or_false] at hmem
    exact h5 hmem.symm

theorem escString_no_nl (s : Str) : '\n' ∉ escString s := by
  intro h
  rw [escString, List.mem_flatMap] at h
  obtain ⟨c, _, hc⟩ := h
  exact escChar_no_nl c hc

theorem append_nil_left (x : Str) : List.append ([] : Str) x = x := rfl

theorem append_cons_left (c : Char) (x y : Str) :
    List.append (c :: x) y = c :: List.append x y := rfl

theorem parseStrBody_esc (s rest : Str) :
    parseStrBody (escString s ++ '"' :: rest) = some (s, rest) := by
  induction s with
  | nil =>
    simp only [escString, List.flatMap_nil, List.nil_append]
    rw [parseStrBody.eq_def]
    conv_lhs => whnf
  | cons c cs ih =>
    rw [show escString (c :: cs) = escChar c ++ escString cs from rfl,
      List.append_assoc]
    unfold escChar
    split
    · rename_i h1
      subst h1
      rw [parseStrBody.eq_def]
      conv_lhs => whnf
      simp only [append_nil_left]
      rw [ih]
    split
    · rename_i h2
      subst h2
      rw [parseStrBody.eq_def]
      conv_lhs => whnf
      simp only [append_nil_left]
      rw [ih]
    split
    · rename_i h3
      subst h3
      rw [parseStrBody.eq_def]
      conv_lhs => whnf
      simp only [append_nil_left]
      rw [ih]
    split
    · rename_i h4
      subst h4
      rw [parseStrBody.eq_def]
      conv_lhs => whnf
      simp only [append_nil_left]
      rw [ih]
    split
    · rename_i h5
      subst h5
      rw [parseStrBody.eq_def]
      conv_lhs => whnf
      simp only [append_nil_left]
      rw [ih]
    split
    · rename_i h6
      subst h6
      rw [parseStrBody.eq_def]
      conv_lhs => whnf
      simp only [append_nil_left]
      rw [ih]
    split
    · rename_i h7
      subst h7
      rw [parseStrBody.eq_def]
      conv_lhs => whnf
      simp only [append_nil_left]
      rw [ih]
    split
    · rename_i h8
      have hd1 := hexVal_hexDig (c.toNat / 16) (by omega)
      have hd2 := hexVal_hexDig (c.toNat % 16) (by omega)
      rw [parseStrBody.eq_def]
      conv_lhs => whnf
      rw [hd1, hd2]
      conv_lhs => whnf
      simp only [append_nil_left]
      rw [ih]
      rw [show ('0'.toNat - 48 : Nat) = 0 from by decide]
      rw [show (0 : Nat) * 4096 + 0 * 256 + c.toNat / 16 * 16 + c.toNat % 16
          = c.toNat from by omega, Char.ofNat_toNat]
    · rename_i h1 h2 h3 h4 h5 h6 h7 h8
      simp only [List.cons_append, List.nil_append]
      rw [parseStrBody.eq_def]
      simp [h1, h2, h8, ih]

theorem skipWs_cons_of (c : Char) (rest : Str) (h : isJsonWs c = false) :
    skipWs (c :: rest) = c :: rest := by
  rw [skipWs]
  simp [h]

theorem parseVal_jstr (fuel : Nat) (f rest : Str) :
    parseVal (fuel + 1) ('"' :: (escString f ++ '"' :: rest)) = some (.jstr f, rest) := by
  rw [parseVal.eq_def]
  conv_lhs => whnf
  rw [parseStrBody_esc]

theorem parseVal_content (f : Str) (fuel : Nat) :
    parseVal (fuel + 4) (contentObjStr (.jstr f)) = some (contentJson f, []) := by
  rw [show contentObjStr (.jstr f)
      = ("\x7b\"content\":").data ++ ('"' :: (escString f ++ '"' :: '\x7d' :: [])) from by
    simp only [contentObjStr, stringifyVal]
    simp [List.append_assoc]]
  rw [parseVal.eq_def]
  conv_lhs => whnf
  simp only [append_cons_left, append_nil_left]
  rw [skipWs_cons_of _ _ (by decide)]
  conv_lhs => whnf
  rw [parseVal_jstr]
  conv_lhs => whnf
  rfl

theorem parseVal_error (m : Str) (fuel : Nat) :
    parseVal (fuel + 4) (errorObjStr (.jstr m)) = some (errorJson m, []) := by
  rw [show errorObjStr (.jstr m)
      = ("\x7b\"error\":").data ++ ('"' :: (escString m ++ '"' :: '\x7d' :: [])) from by
    simp only [errorObjStr, stringifyVal]
    simp [List.append_assoc]]
  rw [parseVal.eq_def]
  conv_lhs => whnf
  simp only [append_cons_left, append_nil_left]
  rw [skipWs_cons_of _ _ (by decide)]
  conv_lhs => whnf
  rw [parseVal_jstr]
  conv_lhs => whnf
  rfl

theorem parseVal_brace (fuel : Nat) (w : Str) :
    parseVal (fuel + 1) ('\x7b' :: w) = parseObjRest fuel (skipWs w) [] := by
  rw [parseVal.eq_def]
  conv_lhs => whnf

theorem parseVal_bracket (fuel : Nat) (w : Str) :
    parseVal (fuel + 1) ('[' :: w) = parseArrRest fuel (skipWs w) [] := by
  rw [parseVal.eq_def]
  conv_lhs => whnf

theorem parseArrRest_brace (fuel : Nat) (w : Str) :
    parseArrRest (fuel + 1) ('\x7b' :: w) [] =
      (parseVal fuel ('\x7b' :: w)).bind
        (fun p => arrAfterVal fuel p.1 (skipWs p.2) []) := by
  rw [parseArrRest.eq_def]
  conv_lhs => whnf
  rfl

theorem parseObjRest_key (fuel : Nat) (rest : Str) :
    parseObjRest (fuel + 1) ('"' :: rest) [] =
      (parseStrBody rest).bind (fun kr => objColon fuel kr.1 (skipWs kr.2) []) := by
  rw [parseObjRest.eq_def]
  conv_lhs => whnf
  rfl

theorem parseStrBody_key (k rest : Str) (hk : escString k = k) :
    parseStrBody (k ++ '"' :: rest) = some (k, rest) := by
  have h := parseStrBody_esc k rest
  rwa [hk] at h

theorem objColon_colon (fuel : Nat) (k : Str) (r2 : Str) :
    objColon (fuel + 1) k (':' :: r2) [] =
      (parseVal fuel (skipWs r2)).bind (fun p => objAfterVal fuel k p.1 (skipWs p.2) []) := by
  rw [objColon.eq_def]
  conv_lhs => whnf
  rfl

theorem objAfterVal_close (fuel : Nat) (k : Str) (v : Json) (r4 : Str)
    (acc : List (Str × Json)) :
    objAfterVal fuel k v ('\x7d' :: r4) acc = some (.jobj (acc ++ [(k, v)]), r4) := by
  cases fuel with
  | zero => rfl
  | succ g => rfl

theorem arrAfterVal_close (fuel : Nat) (v : Json) (r2 : Str) (acc : List Json) :
    arrAfterVal fuel v (']' :: r2) acc = some (.jarr (acc ++ [v]), r2) := by
  cases fuel with
  | zero => rfl
  | succ g => rfl

theorem cons_delta (rest : Str) :
    ('d' :: 'e' :: 'l' :: 't' :: 'a' :: '"' :: rest) = ("delta").data ++ '"' :: rest := rfl

theorem parseVal_upstream (f : Str) (fuel : Nat) :
    parseVal (fuel + 12) (upstreamPayload f) = some (upstreamJson f, []) := by
  rw [upstreamPayload]
  rw [show (("\x7b\"choices\":[\x7b\"delta\":\x7b\"content\":").data : Str) ++
      ('"' :: (escString f ++ '"' :: '\x7d' :: '\x7d' :: ']' :: '\x7d' :: []))
      = '\x7b' :: '"' :: (("choices").data ++ '"' :: ':' :: '[' :: '\x7b' :: '"' ::
        (("delta").data ++ '"' :: ':' :: '\x7b' :: '"' ::
          (("content").data ++ '"' :: ':' :: '"' ::
            (escString f ++ '"' :: '\x7d' :: '\x7d' :: ']' :: '\x7d' :: [])))) from rfl]
  rw [show (fuel + 12 : Nat) = (fuel + 11) + 1 from rfl, parseVal_brace]
  rw [skipWs_cons_of _ _ (by decide)]
  rw [show (fuel + 11 : Nat) = (fuel + 10) + 1 from rfl, parseObjRest_key]
  rw [parseStrBody_key _ _ (by decide)]
  simp only [Option.some_bind]
  rw [skipWs_cons_of _ _ (by decide)]
  rw [show (fuel + 10 : Nat) = (fuel + 9) + 1 from rfl, objColon_colon]
  rw [skipWs_cons_of _ _ (by decide)]
  rw [show (fuel + 9 : Nat) = (fuel + 8) + 1 from rfl, parseVal_bracket]
  rw [skipWs_cons_of _ _ (by decide)]
  rw [show (fuel + 8 : Nat) = (fuel + 7) + 1 from rfl, parseArrRest_brace]
  rw [show (fuel + 7 : Nat) = (fuel + 6) + 1 from rfl, parseVal_brace]
  rw [skipWs_cons_of _ _ (by decide)]
  rw [show (fuel + 6 : Nat) = (fuel + 5) + 1 from rfl, parseObjRest_key]
  rw [parseStrBody_key _ _ (by decide)]
  simp only [Option.some_bind]
  rw [skipWs_cons_of _ _ (by decide)]
  rw [show (fuel + 5 : Nat) = (fuel + 4) + 1 from rfl, objColon_colon]
  rw [skipWs_cons_of _ _ (by decide)]
  rw [show (fuel + 4 : Nat) = (fuel + 3) + 1 from rfl, parseVal_brace]
  rw [skipWs_cons_of _ _ (by decide)]
  rw [show (fuel + 3 : Nat) = (fuel + 2) + 1 from rfl, parseObjRest_key]
  rw [parseStrBody_key _ _ (by decide)]
  simp only [Option.some_bind]
  rw [skipWs_cons_of _ _ (by decide)]
  rw [show (fuel + 2 : Nat) = (fuel + 1) + 1 from rfl, objColon_colon]
  rw [skipWs_cons_of _ _ (by decide)]
  rw [parseVal_jstr]
  rfl

theorem jsonParse_content (f : Str) :
    jsonParse (contentObjStr (.jstr f)) = some (contentJson f) := by
  have h1 : (11 : Nat) ≤ (contentObjStr (.jstr f)).length := by
    rw [contentObjStr]
    rw [List.length_append, List.length_append]
    rw [show ((("\x7b\"content\":").data : Str)).length = 11 from rfl]
    omega
  have hskip : skipWs (contentObjStr (.jstr f)) = contentObjStr (.jstr f) := by
    rw [show contentObjStr (.jstr f)
        = '\x7b' :: ((("\"content\":").data ++ stringifyVal (.jstr f)) ++ ['\x7d']) from rfl]
    exact skipWs_cons_of _ _ (by decide)
  rw [jsonParse, hskip]
  rw [show (contentObjStr (.jstr f)).length + 1
      = ((contentObjStr (.jstr f)).length - 3) + 4 from by omega]
  rw [parseVal_content]
  rfl

theorem jsonParse_error (m : Str) :
    jsonParse (errorObjStr (.jstr m)) = some (errorJson m) := by
  have h1 : (9 : Nat) ≤ (errorObjStr (.jstr m)).length := by
    rw [errorObjStr]
    rw [List.length_append, List.length_append]
    rw [show ((("\x7b\"error\":").data : Str)).length = 9 from rfl]
    omega
  have hskip : skipWs (errorObjStr (.jstr m)) = errorObjStr (.jstr m) := by
    rw [show errorObjStr (.jstr m)
        = '\x7b' :: ((("\"error\":").data ++ stringifyVal (.jstr m)) ++ ['\x7d']) from rfl]
    exact skipWs_cons_of _ _ (by decide)
  rw [jsonParse, hskip]
  rw [show (errorObjStr (.jstr m)).length + 1
      = ((errorObjStr (.jstr m)).length - 3) + 4 from by omega]
  rw [parseVal_error]
  rfl

theorem jsonParse_upstream (f : Str) :
    jsonParse (upstreamPayload f) = some (upstreamJson f) := by
  have h1 : (32 : Nat) ≤ (upstreamPayload f).length := by
    rw [upstreamPayload, List.length_append]
    rw [show ((("\x7b\"choices\":[\x7b\"delta\":\x7b\"content\":").data : Str)).length
        = 32 from rfl]
    omega
  have hskip : skipWs (upstreamPayload f) = upstreamPayload f := by
    rw [show upstreamPayload f
        = '\x7b' :: ((("\"choices\":[\x7b\"delta\":\x7b\"content\":").data : Str) ++
          ('"' :: (escString f ++ '"' :: '\x7d' :: '\x7d' :: ']' :: '\x7d' :: []))) from rfl]
    exact skipWs_cons_of _ _ (by decide)
  rw [jsonParse, hskip]
  rw [show (upstreamPayload f).length + 1
      = ((upstreamPayload f).length - 11) + 12 from by omega]
  rw [parseVal_upstream]
  rfl

/-! ## Lemmas: trimming, the line marker, and property lookups -/

theorem jsTrim_sandwich (a : Char) (mid : Str) (b : Char)
    (ha : isJsWs a = false) (hb : isJsWs b = false) :
    jsTrim (a :: (mid ++ [b])) = a :: (mid ++ [b]) := by
  simp [jsTrim, List.dropWhile_cons, ha, hb, List.reverse_append, List.reverse_cons,
    List.append_assoc]

theorem jsTrim_concat (a b : Char) (x y : Str)
    (ha : isJsWs a = false) (hb : isJsWs b = false) :
    jsTrim ((a :: x) ++ (y ++ [b])) = (a :: x) ++ (y ++ [b]) := by
  have h := jsTrim_sandwich a (x ++ y) b ha hb
  rw [List.append_assoc] at h
  exact h

theorem jsTrim_contentObjStr (v : Json) :
    jsTrim (contentObjStr v) = contentObjStr v := by
  have h := jsTrim_concat '\x7b' '\x7d' ((("\"content\":").data : Str) ++ stringifyVal v)
    [] (by decide) (by decide)
  simpa using h

theorem jsTrim_errorObjStr (v : Json) :
    jsTrim (errorObjStr v) = errorObjStr v := by
  have h := jsTrim_concat '\x7b' '\x7d' ((("\"error\":").data : Str) ++ stringifyVal v)
    [] (by decide) (by decide)
  simpa using h

theorem jsTrim_upstreamPayload (f : Str) :
    jsTrim (upstreamPayload f) = upstreamPayload f := by
  have h := jsTrim_concat '\x7b' '\x7d'
    (((("\"choices\":[\x7b\"delta\":\x7b\"content\":").data : Str)) ++
      ('"' :: (escString f ++ ['"', '\x7d', '\x7d', ']'])))
    [] (by decide) (by decide)
  rw [upstreamPayload]
  simpa [List.append_assoc] using h

theorem ne_done_of_brace (s : Str) : ('\x7b' :: s) ≠ doneStr := by
  intro h
  rw [show doneStr = '[' :: ("DONE]").data from rfl] at h
  injection h with h1 h2
  exact absurd h1 (by decide)

theorem contentObjStr_ne_done (v : Json) : contentObjStr v ≠ doneStr := by
  rw [show contentObjStr v
      = '\x7b' :: ((("\"content\":").data ++ stringifyVal v) ++ ['\x7d']) from rfl]
  exact ne_done_of_brace _

theorem errorObjStr_ne_done (v : Json) : errorObjStr v ≠ doneStr := by
  rw [show errorObjStr v
      = '\x7b' :: ((("\"error\":").data ++ stringifyVal v) ++ ['\x7d']) from rfl]
  exact ne_done_of_brace _

theorem upstreamPayload_ne_done (f : Str) : upstreamPayload f ≠ doneStr := by
  rw [show upstreamPayload f
      = '\x7b' :: ((("\"choices\":[\x7b\"delta\":\x7b\"content\":").data : Str) ++
        ('"' :: (escString f ++ '"' :: '\x7d' :: '\x7d' :: ']' :: '\x7d' :: []))) from rfl]
  exact ne_done_of_brace _

theorem jsStartsWith_marker (x : Str) :
    jsStartsWith dataMarker (dataMarker ++ x) = true := by
  rw [show dataMarker = 'd' :: 'a' :: 't' :: 'a' :: ':' :: ' ' :: [] from rfl]
  simp [jsStartsWith]

theorem dropMarker (x : Str) : (dataMarker ++ x).drop 6 = x := by
  rw [show dataMarker = 'd' :: 'a' :: 't' :: 'a' :: ':' :: ' ' :: [] from rfl]
  simp

theorem getProp_contentJson (f : Str) :
    getProp (contentJson f) (("content").data) = some (.jstr f) := by
  simp [getProp, contentJson, lookupLast]

theorem getProp_contentJson_error (f : Str) :
    getProp (contentJson f) (("error").data) = none := by
  simp [getProp, contentJson, lookupLast]

theorem getProp_errorJson (m : Str) :
    getProp (errorJson m) (("error").data) = some (.jstr m) := by
  simp [getProp, errorJson, lookupLast]

theorem getProp_errorJson_content (m : Str) :
    getProp (errorJson m) (("content").data) = none := by
  simp [getProp, errorJson, lookupLast]

theorem extractContent_upstream (f : Str) :
    extractContent (upstreamJson f) = some (.jstr f) := by
  simp [extractContent, upstreamJson, getProp, lookupLast, optIdx, optProp]

theorem extractContent_errorJson (m : Str) :
    extractContent (errorJson m) = none := by
  simp [extractContent, errorJson, getProp, lookupLast, optIdx, optProp]

/-! ## Lemmas: line processing on each wire shape -/

theorem content_data_eq :
    (("content").data : Str) = ['c', 'o', 'n', 't', 'e', 'n', 't'] := rfl

theorem error_data_eq : (("error").data : Str) = ['e', 'r', 'r', 'o', 'r'] := rfl

theorem procLineClient_content (hE : Bool) (f : Str) (hf : f ≠ []) :
    procLineClient hE (contentLine f) = [.frag (.jstr f)] := by
  obtain ⟨c0, f0, rfl⟩ := List.exists_cons_of_ne_nil hf
  simp [procLineClient, contentLine, jsStartsWith_marker, dropMarker,
    jsTrim_contentObjStr, jsonParse_content, contentObjStr_ne_done,
    contentJson, getProp, lookupLast, jsTruthy, content_data_eq, error_data_eq]

theorem procLineClient_error (hE : Bool) (m : Str) (hm : m ≠ []) :
    procLineClient hE (upstreamErrorLine m) =
      if hE then [.err (.jstr m)] else [] := by
  obtain ⟨c0, m0, rfl⟩ := List.exists_cons_of_ne_nil hm
  simp [procLineClient, upstreamErrorLine, jsStartsWith_marker, dropMarker,
    jsTrim_errorObjStr, jsonParse_error, errorObjStr_ne_done,
    errorJson, getProp, lookupLast, jsTruthy, content_data_eq, error_data_eq]

theorem procLineClient_done (hE : Bool) :
    procLineClient hE ['d', 'a', 't', 'a', ':', ' ', '[', 'D', 'O', 'N', 'E', ']'] = [] := by
  cases hE <;> rfl

theorem procLineClient_empty (hE : Bool) : procLineClient hE [] = [] := rfl

theorem procLineClient_upstream (hE : Bool) (f : Str) :
    procLineClient hE (upstreamLine f) = [] := by
  simp [procLineClient, upstreamLine, jsStartsWith_marker, dropMarker,
    jsTrim_upstreamPayload, jsonParse_upstream, upstreamPayload_ne_done,
    upstreamJson, getProp, lookupLast, content_data_eq, error_data_eq]

theorem procLineServer_upstream (f : Str) :
    procLineServer (upstreamLine f) =
      if f.isEmpty then [] else [contentEnvelope f] := by
  simp only [procLineServer, upstreamLine, jsStartsWith_marker, dropMarker,
    jsTrim_upstreamPayload, jsonParse_upstream, extractContent_upstream]
  rw [if_pos trivial, if_neg (upstreamPayload_ne_done f)]
  cases f with
  | nil => simp [jsTruthy]
  | cons c0 f0 => simp [jsTruthy, contentEnvelope, contentLine]

theorem procLineServer_done :
    procLineServer ['d', 'a', 't', 'a', ':', ' ', '[', 'D', 'O', 'N', 'E', ']']
      = [doneEnvelope] := by decide

theorem procLineServer_empty : procLineServer [] = [] := rfl

theorem procLineServer_error (m : Str) :
    procLineServer (upstreamErrorLine m) = [] := by
  simp [procLineServer, upstreamErrorLine, jsStartsWith_marker, dropMarker,
    jsTrim_errorObjStr, jsonParse_error, errorObjStr_ne_done, extractContent_errorJson,
    jsTruthy]


theorem procLineServerEnd_upstream (f : Str) :
    procLineServerEnd (upstreamLine f) =
      if f.isEmpty then [] else [contentEnvelope f] := by
  simp only [procLineServerEnd, upstreamLine, jsStartsWith_marker, dropMarker,
    jsTrim_upstreamPayload, jsonParse_upstream, extractContent_upstream]
  rw [if_pos trivial, if_neg (upstreamPayload_ne_done f)]
  cases f with
  | nil => simp [jsTruthy]
  | cons c0 f0 => simp [jsTruthy, contentEnvelope, contentLine]

theorem procLineServerEnd_done :
    procLineServerEnd ['d', 'a', 't', 'a', ':', ' ', '[', 'D', 'O', 'N', 'E', ']']
      = [] := by decide

/-! ## Lemmas: decoding whole well-formed streams -/

theorem splitLines_envelope (l : Str) (hl : '\n' ∉ l) (rest : Str) :
    splitLines (l ++ '\n' :: '\n' :: rest)
      = (l :: [] :: (splitLines rest).1, (splitLines rest).2) := by
  rw [splitLines_line l _ hl]
  rw [show splitLines ('\n' :: rest) = ([] :: (splitLines rest).1, (splitLines rest).2) from by
    rw [splitLines]
    simp]

theorem decodeStep_cons_envelope {α : Type} (pl : Str → List α) (l rest : Str)
    (hl : '\n' ∉ l) :
    decodeStep pl [] ((l ++ ('\n' :: '\n' :: [])) ++ rest)
      = ((decodeStep pl [] rest).1, pl l ++ (pl [] ++ (decodeStep pl [] rest).2)) := by
  simp [decodeStep, splitLines_envelope l hl rest]

theorem decodeStep_cons_line {α : Type} (pl : Str → List α) (l rest : Str)
    (hl : '\n' ∉ l) :
    decodeStep pl [] ((l ++ ['\n']) ++ rest)
      = ((decodeStep pl [] rest).1, pl l ++ (decodeStep pl [] rest).2) := by
  simp [decodeStep, splitLines_line l rest hl]

theorem dataMarker_eq : dataMarker = ['d', 'a', 't', 'a', ':', ' '] := rfl

theorem contentPre_eq : (("\x7b\"content\":").data : Str)
    = ['\x7b', '"', 'c', 'o', 'n', 't', 'e', 'n', 't', '"', ':'] := rfl

theorem upstreamPre_eq : (("\x7b\"choices\":[\x7b\"delta\":\x7b\"content\":").data : Str)
    = ['\x7b', '"', 'c', 'h', 'o', 'i', 'c', 'e', 's', '"', ':', '[', '\x7b', '"', 'd',
       'e', 'l', 't', 'a', '"', ':', '\x7b', '"', 'c', 'o', 'n', 't', 'e', 'n', 't',
       '"', ':'] := rfl

theorem contentLine_no_nl (f : Str) : '\n' ∉ contentLine f := by
  intro h
  simp [contentLine, contentObjStr, stringifyVal, dataMarker_eq, contentPre_eq,
    escString_no_nl] at h

theorem upstreamLine_no_nl (f : Str) : '\n' ∉ upstreamLine f := by
  intro h
  simp [upstreamLine, upstreamPayload, dataMarker_eq, upstreamPre_eq,
    escString_no_nl] at h

theorem clientStep_done (hE : Bool) :
    decodeStep (procLineClient hE) [] doneEnvelope = ([], []) := by
  cases hE <;> rfl

theorem clientStep_wf (hE : Bool) (fs : List Str) (hne : ∀ f ∈ fs, f ≠ []) :
    decodeStep (procLineClient hE) [] (wfStream fs)
      = ([], fs.map (fun f => CEvent.frag (.jstr f))) := by
  induction fs with
  | nil =>
    rw [show wfStream [] = ((("data: [DONE]").data : Str) ++ ('\n' :: '\n' :: [])) ++ [] from rfl]
    rw [decodeStep_cons_envelope _ _ _ (by decide)]
    simp [procLineClient_done, procLineClient_empty, decodeStep, splitLines]
  | cons f fs ih =>
    have hf : f ≠ [] := hne f (by simp)
    have hrest : ∀ g ∈ fs, g ≠ [] := fun g hg => hne g (by simp [hg])
    rw [show wfStream (f :: fs) = (contentLine f ++ ('\n' :: '\n' :: [])) ++ wfStream fs from by
      simp [wfStream, contentEnvelope, List.append_assoc]]
    rw [decodeStep_cons_envelope _ _ _ (contentLine_no_nl f)]
    rw [ih hrest]
    simp [procLineClient_content hE f hf, procLineClient_empty]

theorem serverStep_upstream (fs : List Str) :
    decodeStep procLineServer [] (upstreamStream fs)
      = ([], List.flatMap fs (fun f => if f.isEmpty then [] else [contentEnvelope f])
          ++ [doneEnvelope]) := by
  induction fs with
  | nil =>
    rw [show upstreamStream [] = ((("data: [DONE]").data : Str) ++ ['\n']) ++ [] from rfl]
    rw [decodeStep_cons_line _ _ _ (by decide)]
    simp [procLineServer_done, decodeStep, splitLines]
  | cons f fs ih =>
    rw [show upstreamStream (f :: fs) = (upstreamLine f ++ ['\n']) ++ upstreamStream fs from by
      simp [upstreamStream, List.append_assoc]]
    rw [decodeStep_cons_line _ _ _ (upstreamLine_no_nl f)]
    rw [ih]
    simp [procLineServer_upstream f]

theorem serverEnd_nil : serverEnd [] = [doneEnvelope] := by decide

theorem flatMap_ite_filter {α : Type} (g : Str → α) (fs : List Str) :
    List.flatMap fs (fun f => if f.isEmpty then [] else [g f])
      = (fs.filter (fun f => !f.isEmpty)).map g := by
  induction fs with
  | nil => simp
  | cons f fs ih =>
    cases f with
    | nil => simpa using ih
    | cons c f0 => simpa using ih

theorem serverRun_upstream (fs : List Str) :
    serverRun [upstreamStream fs]
      = ((fs.filter (fun f => !f.isEmpty)).map contentEnvelope)
        ++ [doneEnvelope, doneEnvelope] := by
  simp only [serverRun, decodeRun, decodeStep]
  have h := serverStep_upstream fs
  simp only [decodeStep] at h
  rw [Prod.ext_iff] at h
  obtain ⟨h1, h2⟩ := h
  dsimp only at h1 h2
  rw [h1, h2, serverEnd_nil, flatMap_ite_filter]
  simp

/-! ## Lemmas: runs, residual buffers, and fragment extraction -/

theorem decodeRun_single {α : Type} (pl : Str → List α) (c : Str) :
    decodeRun pl [] [c] = ((decodeStep pl [] c).1, (decodeStep pl [] c).2) := by
  simp [decodeRun]

theorem fragTexts_map_frag (fs : List Str) :
    fragTexts (fs.map (fun f => CEvent.frag (.jstr f))) = fs := by
  induction fs with
  | nil => rfl
  | cons f fs ih => simp [fragTexts] at ih ⊢; exact ih

theorem doneEnvelope_eq : doneEnvelope
    = ['d', 'a', 't', 'a', ':', ' ', '[', 'D', 'O', 'N', 'E', ']', '\n', '\n'] := rfl

theorem jsTrim_upstreamLine (f : Str) :
    jsTrim (upstreamLine f) = upstreamLine f := by
  have h := jsTrim_concat 'd' '\x7d'
    (['a', 't', 'a', ':', ' '] ++ (("\x7b\"choices\":[\x7b\"delta\":\x7b\"content\":").data : Str))
    ('"' :: (escString f ++ '"' :: '\x7d' :: '\x7d' :: ']' :: []))
    (by decide) (by decide)
  simpa [upstreamLine, upstreamPayload, dataMarker_eq, List.append_assoc] using h

theorem splitAll_noNl (s : Str) (h : '\n' ∉ s) : splitAll s = [s] := by
  simp [splitAll, splitLines_noNl s h]

theorem upstreamLine_ne_nil (f : Str) : upstreamLine f ≠ [] := by
  rw [upstreamLine, dataMarker_eq]
  simp

theorem serverEnd_upstreamLine (f : Str) (hf : f ≠ []) :
    serverEnd (upstreamLine f) = [contentEnvelope f, doneEnvelope] := by
  rw [serverEnd]
  rw [if_pos (by rw [jsTrim_upstreamLine]; exact upstreamLine_ne_nil f)]
  rw [splitAll_noNl _ (upstreamLine_no_nl f)]
  obtain ⟨c0, f0, rfl⟩ := List.exists_cons_of_ne_nil hf
  simp [procLineServerEnd_upstream]

theorem serverEnd_doneLine :
    serverEnd (("data: [DONE]").data) = [doneEnvelope] := by decide

/-! ## Claim theorems -/

/-- C1: on the upstream lines carrying "Hel", "lo" and the upstream
terminator, the relay writes the two expected content envelopes but then
writes the terminator envelope twice — once when forwarding the upstream
`[DONE]` line and once unconditionally in the `end` handler — instead of
the exactly-once termination the claim states. -/
theorem claim_c1_code_eval :
    serverRun
      [(("data: \x7b\"choices\":[\x7b\"delta\":\x7b\"content\":\"Hel\"\x7d\x7d]\x7d\n").data),
       (("data: \x7b\"choices\":[\x7b\"delta\":\x7b\"content\":\"lo\"\x7d\x7d]\x7d\n").data),
       (("data: [DONE]\n").data)]
      = [(("data: \x7b\"content\":\"Hel\"\x7d\n\n").data),
         (("data: \x7b\"content\":\"lo\"\x7d\n\n").data),
         doneEnvelope, doneEnvelope]
    ∧ (serverRun
      [(("data: \x7b\"choices\":[\x7b\"delta\":\x7b\"content\":\"Hel\"\x7d\x7d]\x7d\n").data),
       (("data: \x7b\"choices\":[\x7b\"delta\":\x7b\"content\":\"lo\"\x7d\x7d]\x7d\n").data),
       (("data: [DONE]\n").data)]).count doneEnvelope = 2 := by
  constructor <;> decide

/-- C2 counterexample: the client-side decoder does not apply the line rule
to a non-empty residual line at end-of-data and emits no terminator event —
the residual content line yields no callback at all, although the line rule
applied to it would produce the fragment "x". -/
theorem claim_c2_counterexample :
    clientRun true [(("data: \x7b\"content\":\"x\"\x7d").data)] = []
    ∧ procLineClient true (("data: \x7b\"content\":\"x\"\x7d").data)
        = [CEvent.frag (.jstr ['x'])] :=
  ⟨rfl, rfl⟩

/-- C2 amended: only the server-side decoder processes a non-empty residual
line at stream end — a residual content line is emitted once and followed by
exactly one terminator, and a residual terminator line is not forwarded (the
end handler's rule differs from the mid-stream rule there, keeping the
terminator count at one); the client-side decoder discards any unterminated
residual and emits no terminator event. -/
theorem claim_c2_amended (f : Str) (hf : f ≠ []) :
    serverEnd (upstreamLine f) = [contentEnvelope f, doneEnvelope]
    ∧ serverEnd (("data: [DONE]").data) = [doneEnvelope]
    ∧ (∀ (hE : Bool) (chunk : Str), '\n' ∉ chunk → clientRun hE [chunk] = []) := by
  refine ⟨serverEnd_upstreamLine f hf, serverEnd_doneLine, ?_⟩
  intro hE chunk hchunk
  rw [clientRun, decodeRun_single]
  simp [decodeStep, splitLines_noNl _ hchunk]

theorem claim_c2_amended_witness :
    serverEnd (upstreamLine (("x").data)) = [contentEnvelope (("x").data), doneEnvelope] :=
  (claim_c2_amended (("x").data) (by decide)).1

/-- C10: round-trip of the relay envelope encoding — for every non-empty
fragment, the client's line parser recovers exactly the fragment from the
encoded `data: {"content":...}` line, and the JSON escaping guarantees the
encoded line contains no newline, so it cannot break the line framing. -/
theorem claim_c10 (hE : Bool) (f : Str) (hf : f ≠ []) :
    procLineClient hE (contentLine f) = [CEvent.frag (.jstr f)]
    ∧ '\n' ∉ contentLine f :=
  ⟨procLineClient_content hE f hf, contentLine_no_nl f⟩

theorem claim_c10_witness :
    procLineClient true (contentLine ['a', '"', '\n', 'b'])
      = [CEvent.frag (.jstr ['a', '"', '\n', 'b'])] :=
  (claim_c10 true ['a', '"', '\n', 'b'] (by decide)).1

/-- C6 counterexample: an upstream data line whose payload carries an error
field produces no downstream write from the relay's decoder — the run's only
write is the synthesized terminator, and no error envelope is written,
contradicting the claim that the relay writes its own error envelope for
decoded error lines. -/
theorem claim_c6_counterexample :
    serverRun [(("data: \x7b\"error\":\"boom\"\x7d\n").data)] = [doneEnvelope]
    ∧ errorEnvelope (("boom").data) ∉
        serverRun [(("data: \x7b\"error\":\"boom\"\x7d\n").data)] := by
  constructor <;> decide

/-- C6 amended: the client-side decoder dispatches the error callback with
the payload's error value (when a callback was supplied); the relay's
decoder forwards nothing for a decoded error payload (its content extraction
yields nothing), and the relay writes its own error envelope only in the
transport-level error handlers. -/
theorem claim_c6_amended (m : Str) (hm : m ≠ []) :
    procLineClient true (upstreamErrorLine m) = [CEvent.err (.jstr m)]
    ∧ procLineServer (upstreamErrorLine m) = []
    ∧ serverOnProxyError m = [errorEnvelope m] := by
  refine ⟨?_, procLineServer_error m, rfl⟩
  rw [procLineClient_error true m hm]
  simp

theorem claim_c6_amended_witness :
    procLineClient true (upstreamErrorLine (("boom").data))
      = [CEvent.err (.jstr (("boom").data))] :=
  (claim_c6_amended (("boom").data) (by decide)).1

/-- C8: a non-ok HTTP response makes the stream client fail with an error
carrying the status code and the body text, and the streaming decode phase
is never entered (the operation never resolves with a callback sequence). -/
theorem claim_c8 (resp : FetchResponse) (hE : Bool) (h : resp.ok = false) :
    streamFromApi resp hE
      = .error ((("API error ").data) ++ (Nat.repr resp.status).data
          ++ ((": ").data) ++ resp.bodyText)
    ∧ ∀ evs, streamFromApi resp hE ≠ .ok evs := by
  simp [streamFromApi, h]

theorem claim_c8_witness :
    streamFromApi ⟨false, 500, ("oops").data, some []⟩ true
      = .error (("API error 500: oops").data) := by
  rw [(claim_c8 ⟨false, 500, ("oops").data, some []⟩ true rfl).1]
  rfl

/-- C3: chunking invariance — for every way of cutting a well-formed relay
envelope stream into chunks, the client decoder emits exactly one fragment
event per encoded fragment, in order, and the concatenation of the decoded
fragment texts equals the concatenation of the original fragments. -/
theorem claim_c3 (hE : Bool) (chunks fs : List Str)
    (hwf : chunks.flatten = wfStream fs) (hne : ∀ f ∈ fs, f ≠ []) :
    clientRun hE chunks = fs.map (fun f => CEvent.frag (.jstr f))
    ∧ (fragTexts (clientRun hE chunks)).flatten = fs.flatten := by
  have hchunks : chunks ≠ [] := by
    intro hnil
    subst hnil
    simp [wfStream, doneEnvelope_eq] at hwf
  obtain ⟨c, cs, rfl⟩ := List.exists_cons_of_ne_nil hchunks
  have hrun : clientRun hE (c :: cs)
      = (decodeStep (procLineClient hE) [] (c ++ cs.flatten)).2 := by
    simp [clientRun, decodeRun_cons_flatten]
  have hflat : c ++ cs.flatten = wfStream fs := by simpa using hwf
  rw [hrun, hflat, clientStep_wf hE fs hne]
  refine ⟨rfl, ?_⟩
  dsimp only
  rw [fragTexts_map_frag]

theorem claim_c3_witness :
    clientRun true [(("data: \x7b\"cont").data), (("ent\":\"x\"\x7d\n\ndata: [DONE]\n\n").data)]
      = [CEvent.frag (.jstr ['x'])] :=
  (claim_c3 true
    [(("data: \x7b\"cont").data), (("ent\":\"x\"\x7d\n\ndata: [DONE]\n\n").data)]
    [['x']] (by decide) (by decide)).1

/-- C4 counterexample: a produced upstream fragment whose content is the
empty string is dropped by the pipeline — for upstream fragments "Hel", "",
"lo" the client callback receives only "Hel" and "lo", so the claim that
empty-content fragments are also delivered is false. -/
theorem claim_c4_counterexample :
    fragTexts (clientRun true
        [(serverRun [upstreamStream [("Hel").data, [], ("lo").data]]).flatten])
      = [("Hel").data, ("lo").data]
    ∧ ([] : Str) ∉ fragTexts (clientRun true
        [(serverRun [upstreamStream [("Hel").data, [], ("lo").data]]).flatten]) := by
  constructor <;> decide

/-- C4 amended: across the whole pipeline (upstream provider through relay
to client callback), fragments with non-empty content are delivered exactly
once each, in upstream order; fragments whose content is empty (falsy) are
filtered out by the relay and never reach the client. -/
theorem claim_c4_amended (hE : Bool) (fs : List Str) :
    clientRun hE [(serverRun [upstreamStream fs]).flatten]
      = ((fs.filter (fun f => !f.isEmpty)).map (fun f => CEvent.frag (.jstr f)))
    ∧ fragTexts (clientRun hE [(serverRun [upstreamStream fs]).flatten])
        = fs.filter (fun f => !f.isEmpty) := by
  have hstream : (serverRun [upstreamStream fs]).flatten
      = wfStream (fs.filter (fun f => !f.isEmpty)) ++ doneEnvelope := by
    rw [serverRun_upstream fs]
    simp [wfStream, List.append_assoc]
  have hne : ∀ f ∈ fs.filter (fun f => !f.isEmpty), f ≠ [] := by
    intro f hf hnil
    subst hnil
    have := List.of_mem_filter hf
    simp at this
  have hrun : clientRun hE [(serverRun [upstreamStream fs]).flatten]
      = (fs.filter (fun f => !f.isEmpty)).map (fun f => CEvent.frag (.jstr f)) := by
    rw [clientRun, decodeRun_single, hstream]
    rw [show wfStream (fs.filter (fun f => !f.isEmpty)) ++ doneEnvelope
        = wfStream (fs.filter (fun f => !f.isEmpty)) ++ doneEnvelope from rfl]
    rw [decodeStep_append]
    rw [clientStep_wf hE _ hne]
    dsimp only
    rw [clientStep_done]
    simp
  exact ⟨hrun, by rw [hrun, fragTexts_map_frag]⟩

/-- C5: credential resolution on all three endpoints — a non-empty
caller-supplied credential is used; an absent or empty caller credential
falls back to a non-empty environment credential; when both are absent or
empty the handler replies immediately with the non-streaming 400 JSON error
body and opens no upstream connection. -/
theorem claim_c5 (a e : Option Str) :
    (∀ k, a = some k → k ≠ [] →
      chatRoute a e = .sse k ∧ generateModuleRoute a e = .sse k
        ∧ selfModifyRoute a e = .sse k)
    ∧ ((a = none ∨ a = some []) → ∀ k, e = some k → k ≠ [] →
      chatRoute a e = .sse k ∧ generateModuleRoute a e = .sse k
        ∧ selfModifyRoute a e = .sse k)
    ∧ ((a = none ∨ a = some []) → (e = none ∨ e = some []) →
      (chatRoute a e = .jsonError 400 noKeyBody
        ∧ upstreamConnections (chatRoute a e) = 0)
      ∧ (generateModuleRoute a e = .jsonError 400 noKeyBody
        ∧ upstreamConnections (generateModuleRoute a e) = 0)
      ∧ (selfModifyRoute a e = .jsonError 400 noKeyBody
        ∧ upstreamConnections (selfModifyRoute a e) = 0)) := by
  refine ⟨?_, ?_, ?_⟩
  · intro k hk hne
    subst hk
    obtain ⟨c0, k0, rfl⟩ := List.exists_cons_of_ne_nil hne
    simp [chatRoute, generateModuleRoute, selfModifyRoute]
  · intro ha k hk hne
    subst hk
    obtain ⟨c0, k0, rfl⟩ := List.exists_cons_of_ne_nil hne
    rcases ha with h | h <;> subst h <;>
      simp [chatRoute, generateModuleRoute, selfModifyRoute]
  · intro ha he
    rcases ha with h | h <;> rcases he with h' | h' <;> subst h <;> subst h' <;>
      simp [chatRoute, generateModuleRoute, selfModifyRoute, upstreamConnections]

theorem claim_c5_witness :
    chatRoute none none = .jsonError 400 noKeyBody
      ∧ upstreamConnections (chatRoute none none) = 0 :=
  ((claim_c5 none none).2.2 (Or.inl rfl) (Or.inl rfl)).1

/-- C7: a data-prefixed line whose payload fails to parse (and is not the
terminator sentinel) is skipped by both decoders without halting: it
produces no event and no write, and a valid line after it is still decoded
and its fragment emitted. -/
theorem claim_c7 (bad : Str) (hE : Bool) (f : Str)
    (h1 : jsStartsWith dataMarker bad = true)
    (h2 : jsonParse (jsTrim (bad.drop 6)) = none)
    (h3 : jsTrim (bad.drop 6) ≠ doneStr)
    (h4 : '\n' ∉ bad) (hf : f ≠ []) :
    procLineClient hE bad = []
    ∧ procLineServer bad = []
    ∧ clientRun hE [bad ++ '\n' :: contentEnvelope f] = [CEvent.frag (.jstr f)]
    ∧ (serverData [] (bad ++ '\n' :: (upstreamLine f ++ ['\n']))).2
        = [contentEnvelope f] := by
  have hc : procLineClient hE bad = [] := by
    simp [procLineClient, h1, h2, h3]
  have hs : procLineServer bad = [] := by
    simp [procLineServer, h1, h2, h3]
  have hsplitnil : splitLines ([] : Str) = ([], []) := rfl
  refine ⟨hc, hs, ?_, ?_⟩
  · rw [clientRun, decodeRun_single]
    rw [show bad ++ '\n' :: contentEnvelope f
        = bad ++ '\n' :: (contentLine f ++ '\n' :: '\n' :: []) from rfl]
    simp only [decodeStep, List.nil_append, splitLines_line bad _ h4,
      splitLines_envelope (contentLine f) (contentLine_no_nl f) []]
    simp [hc, procLineClient_content hE f hf, procLineClient_empty, hsplitnil]
  · simp only [serverData, decodeStep, List.nil_append, splitLines_line bad _ h4,
      splitLines_line (upstreamLine f) [] (upstreamLine_no_nl f)]
    obtain ⟨c0, f0, rfl⟩ := List.exists_cons_of_ne_nil hf
    simp [hs, procLineServer_upstream, hsplitnil]

theorem claim_c7_witness :
    procLineClient true (("data: nope").data) = []
    ∧ clientRun true [(("data: nope").data) ++ '\n' :: contentEnvelope ['x']]
        = [CEvent.frag (.jstr ['x'])] := by
  have h := claim_c7 (("data: nope").data) true ['x']
    (by decide) (by rfl) (by decide) (by decide) (by decide)
  exact ⟨h.1, h.2.2.1⟩

/-- C9: the client keeps reading past a mid-stream terminator — fragments
encoded after a `[DONE]` envelope are still delivered — and the run always
consumes every chunk of the source: the events of a run extended by one
chunk are the original events followed by that chunk's events. -/
theorem claim_c9 (hE : Bool) (fs1 fs2 : List Str)
    (h : ∀ f ∈ fs1 ++ fs2, f ≠ []) :
    clientRun hE [wfStream fs1 ++ wfStream fs2]
      = (fs1 ++ fs2).map (fun f => CEvent.frag (.jstr f))
    ∧ ∀ (chunks : List Str) (c : Str),
        clientRun hE (chunks ++ [c])
          = clientRun hE chunks
            ++ (decodeStep (procLineClient hE)
                (decodeRun (procLineClient hE) [] chunks).1 c).2 := by
  constructor
  · have hne1 : ∀ f ∈ fs1, f ≠ [] := fun f hf => h f (by simp [hf])
    have hne2 : ∀ f ∈ fs2, f ≠ [] := fun f hf => h f (by simp [hf])
    rw [clientRun, decodeRun_single, decodeStep_append]
    rw [clientStep_wf hE fs1 hne1]
    dsimp only
    rw [clientStep_wf hE fs2 hne2]
    simp
  · intro chunks c
    rw [clientRun, clientRun, decodeRun_append]
    simp [decodeRun]

theorem claim_c9_witness :
    clientRun true [wfStream [("a").data] ++ wfStream [("b").data]]
      = [CEvent.frag (.jstr (("a").data)), CEvent.frag (.jstr (("b").data))] := by
  rw [(claim_c9 true [("a").data] [("b").data] (by decide)).1]
  rfl

end Crucible
